import Mathlib

/-! machinery v1: the Server of `v1/server.go`

A shallow embedding of `Server` and its methods, and the properties of
task submission (`SendTask`), state forwarding (`UpdateTaskState`),
construction (`NewServer`) and the task registry (`RegisterTasks`,
`RegisterTask`, `GetRegisteredTask`).

Conventions of the embedding.

* A Go `error` is its `Error()` text; `none` is the nil error.
* A nil-able Go value (interface, pointer, map) is an `Option`, or has an
  explicit `nil` constructor; `none` is nil.
* A Go panic is `Except.error`; a normal return is `Except.ok`.
* The Broker and the Backend are collaborators with arbitrary state: each
  method is a function on a state of type `W` that every collaborator may
  read and change.  The `World` also keeps the list of collaborator calls
  made so far, oldest first; the list is written at the two call sites of
  the source (`server.backend.UpdateState`, `server.broker.Publish`) and
  nowhere else.
* `*TaskSignature` is a non-nil pointer: its target is passed in and the
  target after the call is part of the result.
-/

namespace machinery

/-- Go `[]byte`. -/
abbrev Bytes := List Nat

/-- Go `error`: `none` is nil, `some txt` an error whose `Error()` is `txt`. -/
abbrev GoError := Option String

/-- Go `map[string]interface{}`: the nil map, or an allocated map given by its
entries, where the first entry of a key is the key's value.  An
`interface{}` value is `Option H`, `none` being the nil interface.  A Go map
is a reference; a value of this type is the content the referenced map has
when it is looked at.  `RegisterTasks` keeps the caller's reference, so a
later `RegisterTask` also writes to the caller's map; no method of the
server reads that map other than through the server's field, so the content
of the field is all the registry methods depend on. -/
inductive GoMap (H : Type) where
  | nil : GoMap H
  | mk (entries : List (String × Option H)) : GoMap H

/-- Go `v, ok := m[k]`: `none` when the key is missing (also on the nil map). -/
def GoMap.lookup {H : Type} (m : GoMap H) (k : String) : Option (Option H) :=
  match m with
  | .nil => none
  | .mk entries => entries.lookup k

/-- Go `m[k]`: the zero value, the nil interface, when the key is missing;
reading the nil map is allowed. -/
def GoMap.index {H : Type} (m : GoMap H) (k : String) : Option H :=
  (m.lookup k).getD none

/-- Go `m[k] = v`: panics on the nil map, otherwise sets the one entry of `k`. -/
def GoMap.assign {H : Type} (m : GoMap H) (k : String) (v : Option H) :
    Except String (GoMap H) :=
  match m with
  | .nil => .error "assignment to entry in nil map"
  | .mk entries => .ok (.mk ((k, v) :: entries.filter (fun e => e.1 != k)))

/-- A call received by a collaborator, with its arguments. -/
inductive Call (R : Type) where
  | UpdateState (taskUUID state : String) (result : Option R) : Call R
  | Publish (message : Bytes) (routingKey : String) : Call R

/-- The state of the collaborators and the calls they have received, oldest first. -/
structure World (W R : Type) where
  state : W
  calls : List (Call R)

/-- Interface `brokers.Broker`, as far as server.go uses it:
`Publish(message []byte, routingKey string) error`. -/
structure brokers.Broker (W : Type) where
  Publish : Bytes → String → W → GoError × W

/-- Interface `backends.Backend`, as far as server.go uses it:
`UpdateState(taskUUID, state string, result *TaskResult) error`. -/
structure backends.Backend (W R : Type) where
  UpdateState : String → String → Option R → W → GoError × W

/-- Modelled from the spec: the constant `backends.PendingState`, declared in
package backends, which is not among the source files; the spec names the
state Pending.  The theorems name the two state constants; of their texts
only that they differ is used. -/
def backends.PendingState : String := "PENDING"

/-- Modelled from the spec: the constant `backends.FailureState`, declared in
package backends, which is not among the source files; the spec names the
state Failure. -/
def backends.FailureState : String := "FAILURE"

/-- Modelled from the spec: `backends.AsyncResult`, declared in package
backends, which is not among the source files: "an immutable pair
{TaskUUID, Backend reference}". -/
structure backends.AsyncResult (W R : Type) where
  taskUUID : String
  backend : Option (backends.Backend W R)

/-- Modelled from the spec: `backends.NewAsyncResult`, declared in package
backends, which is not among the source files: "constructed as
New(uuid, backend)". -/
def backends.NewAsyncResult {W R : Type} (taskUUID : String)
    (backend : Option (backends.Backend W R)) : backends.AsyncResult W R :=
  { taskUUID := taskUUID, backend := backend }

/-- Modelled from the spec: `TaskSignature`, declared in another file of the
package, which is not among the source files: "Fields: UUID, Name (key into
TaskRegistry), RoutingKey (destination queue/topic), Args (an ordered
parameter payload)". -/
structure TaskSignature (A : Type) where
  UUID : String
  Name : String
  RoutingKey : String
  Args : List A

/-- The struct `Server`.  `C` is `*config.Config`, `H` the dynamic values a
non-nil `interface{}` holds. -/
structure Server (C H W R : Type) where
  config : C
  registeredTasks : GoMap H
  broker : Option (brokers.Broker W)
  backend : Option (backends.Backend W R)

/-- The function `NewServer`.  The two factories are functions of the package
that are not among the source files; they are parameters, each returning
its value together with its error, as in Go. -/
def NewServer {C H W R : Type}
    (BrokerFactory : C → Option (brokers.Broker W) × GoError)
    (BackendFactory : C → Option (backends.Backend W R) × GoError)
    (cnf : C) : Option (Server C H W R) × GoError :=
  match BrokerFactory cnf with
  | (_, some err) => (none, some err)
  | (broker, none) =>
    -- Backend is optional so we ignore the error
    let backend := (BackendFactory cnf).1
    (some { config := cnf, registeredTasks := GoMap.mk [], broker := broker,
            backend := backend }, none)

/-- The method `GetBroker`. -/
def Server.GetBroker {C H W R : Type} (server : Server C H W R) :
    Option (brokers.Broker W) :=
  server.broker

/-- The method `GetConfig`. -/
def Server.GetConfig {C H W R : Type} (server : Server C H W R) : C :=
  server.config

/-- The method `RegisterTasks`: the field is set to the map handed in. -/
def Server.RegisterTasks {C H W R : Type} (server : Server C H W R)
    (tasks : GoMap H) : Server C H W R :=
  { server with registeredTasks := tasks }

/-- The method `RegisterTask`: one map assignment, which panics on the nil map. -/
def Server.RegisterTask {C H W R : Type} (server : Server C H W R)
    (name : String) (task : Option H) : Except String (Server C H W R) :=
  match server.registeredTasks.assign name task with
  | .error p => .error p
  | .ok tasks => .ok { server with registeredTasks := tasks }

/-- The method `GetRegisteredTask`: one map read. -/
def Server.GetRegisteredTask {C H W R : Type} (server : Server C H W R)
    (name : String) : Option H :=
  server.registeredTasks.index name

/-- The method `UpdateTaskState`. -/
def Server.UpdateTaskState {C H W R : Type} (server : Server C H W R)
    (taskUUID state : String) (result : Option R) (w : World W R) :
    GoError × World W R :=
  match server.backend with
  | none => (none, w)
  | some backend =>
    let r := backend.UpdateState taskUUID state result w.state
    (r.1, { state := r.2, calls := w.calls ++ [Call.UpdateState taskUUID state result] })

/-- What a call of `SendTask` leaves: the signature the pointer refers to, the
world, and either a panic or the two returned values. -/
structure SendTaskResult (A W R : Type) where
  signature : TaskSignature A
  world : World W R
  ret : Except String (Option (backends.AsyncResult W R) × GoError)

/-- The method `SendTask`.  `NewV4` is the text `uuid.NewV4().String()` yields
in this call and `Marshal` is `json.Marshal` on signatures, both from
libraries outside the repository.  A nil `server.broker` makes the call of
`Publish` panic. -/
def Server.SendTask {C H W R A : Type} (server : Server C H W R)
    (NewV4 : String) (Marshal : TaskSignature A → Except String Bytes)
    (signature : TaskSignature A) (w : World W R) : SendTaskResult A W R :=
  -- Auto generate a UUID if not set already
  let signature : TaskSignature A :=
    if signature.UUID = "" then { signature with UUID := NewV4 } else signature
  match Marshal signature with
  | .error err =>
    { signature := signature, world := w,
      ret := .ok (none, some ("JSON Encode Message: " ++ err)) }
  | .ok message =>
    let w1 := (server.UpdateTaskState signature.UUID backends.PendingState none w).2
    match server.broker with
    | none =>
      { signature := signature, world := w1,
        ret := .error "runtime error: invalid memory address or nil pointer dereference" }
    | some broker =>
      let p := broker.Publish message signature.RoutingKey w1.state
      let w2 : World W R :=
        { state := p.2, calls := w1.calls ++ [Call.Publish message signature.RoutingKey] }
      match p.1 with
      | some err =>
        let w3 := (server.UpdateTaskState signature.UUID backends.FailureState none w2).2
        { signature := signature, world := w3,
          ret := .ok (none, some ("Publish Message: " ++ err)) }
      | none =>
        { signature := signature, world := w2,
          ret := .ok (some (backends.NewAsyncResult signature.UUID server.backend), none) }

/-- The signature after the first statement of `SendTask`: the generated
identifier is put in when the UUID is empty. -/
def assignUUID {A : Type} (NewV4 : String) (signature : TaskSignature A) :
    TaskSignature A :=
  if signature.UUID = "" then { signature with UUID := NewV4 } else signature

/-- The calls the collaborators received between two worlds of one run. -/
def callsMade {W R : Type} (before after : World W R) : List (Call R) :=
  after.calls.drop before.calls.length

/-- The calls of a list that went to the Backend. -/
def backendCalls {R : Type} (calls : List (Call R)) : List (Call R) :=
  calls.filter (fun c => match c with
    | .UpdateState _ _ _ => true
    | .Publish _ _ => false)

/-- The calls of a list that went to the Broker. -/
def brokerCalls {R : Type} (calls : List (Call R)) : List (Call R) :=
  calls.filter (fun c => match c with
    | .UpdateState _ _ _ => false
    | .Publish _ _ => true)

/-- The error `SendTask` returned, when it returned. -/
def SendTaskResult.err {A W R : Type} (out : SendTaskResult A W R) :
    Except String GoError :=
  out.ret.map Prod.snd

/-- A caller submitting signatures one after another on one server.  Each
item is the text `uuid.NewV4` would yield in that call and the signature
submitted; a panic ends the run. -/
def Server.SendTasks {C H W R A : Type} (server : Server C H W R)
    (Marshal : TaskSignature A → Except String Bytes) :
    List (String × TaskSignature A) → World W R → World W R
  | [], w => w
  | (NewV4, signature) :: rest, w =>
    match (server.SendTask NewV4 Marshal signature w).ret with
    | .error _ => (server.SendTask NewV4 Marshal signature w).world
    | .ok _ => Server.SendTasks server Marshal rest (server.SendTask NewV4 Marshal signature w).world

/-- Whether a call writes the given state for the given task. -/
def Call.writes {R : Type} (taskUUID state : String) : Call R → Bool
  | .UpdateState u s _ => u == taskUUID && s == state
  | .Publish _ _ => false

/-- Whether somewhere in the list a write of Failure for a task is followed,
at any distance, by a write of Pending for the same task. -/
def pendingAfterFailure {R : Type} : List (Call R) → Bool
  | [] => false
  | .UpdateState u s _ :: rest =>
    (s == backends.FailureState && rest.any (Call.writes u backends.PendingState))
      || pendingAfterFailure rest
  | .Publish _ _ :: rest => pendingAfterFailure rest

/-- The servers a caller can get: one returned by `NewServer`, then any number
of `RegisterTasks` and (returning) `RegisterTask` calls. -/
inductive Reachable {C H W R : Type} : Server C H W R → Prop where
  | new (BrokerFactory : C → Option (brokers.Broker W) × GoError)
      (BackendFactory : C → Option (backends.Backend W R) × GoError)
      (cnf : C) (server : Server C H W R)
      (h : NewServer BrokerFactory BackendFactory cnf = (some server, none)) :
      Reachable server
  | registerTasks (server : Server C H W R) (tasks : GoMap H)
      (h : Reachable server) : Reachable (server.RegisterTasks tasks)
  | registerTask (server after : Server C H W R) (name : String) (task : Option H)
      (h : Reachable server) (hr : server.RegisterTask name task = .ok after) :
      Reachable after

/-! ## Sample collaborators and inputs -/

/-- A broker that accepts every message. -/
def sampleBroker : brokers.Broker Nat :=
  { Publish := fun _ _ n => (none, n + 1) }

/-- A broker that refuses every message. -/
def refusingBroker : brokers.Broker Nat :=
  { Publish := fun _ _ n => (some "connection refused", n) }

/-- A broker on a store it shares with the Backend: it accepts a task while
the store is empty and refuses it once the store holds a record. -/
def sharedStoreBroker : brokers.Broker Nat :=
  { Publish := fun _ _ n => if n = 0 then (none, n) else (some "already pending", n) }

/-- A backend that accepts every write and records it in the store. -/
def sampleBackend : backends.Backend Nat Unit :=
  { UpdateState := fun _ _ _ n => (none, n + 10) }

/-- A backend that fails every write. -/
def failingBackend : backends.Backend Nat Unit :=
  { UpdateState := fun _ _ _ n => (some "backend unavailable", n) }

/-- An encoder that always succeeds: the lengths of the UUID and the routing key. -/
def sampleMarshal : TaskSignature Nat → Except String Bytes :=
  fun s => .ok [s.UUID.length, s.RoutingKey.length]

/-- An encoder that always fails. -/
def failingMarshal : TaskSignature Nat → Except String Bytes :=
  fun _ => .error "json: unsupported type"

/-- The signature of the spec's scenarios A and B. -/
def emailSignature : TaskSignature Nat :=
  { UUID := "", Name := "email.send", RoutingKey := "notifications", Args := [] }

/-- A signature whose UUID the caller has set. -/
def presetSignature : TaskSignature Nat :=
  { UUID := "u-1", Name := "email.send", RoutingKey := "notifications", Args := [] }

/-- A server with the given collaborators and an empty registry. -/
def sampleServer (broker : Option (brokers.Broker Nat))
    (backend : Option (backends.Backend Nat Unit)) : Server Unit Nat Nat Unit :=
  { config := (), registeredTasks := GoMap.mk [], broker := broker, backend := backend }

/-- The world before any call. -/
def emptyWorld : World Nat Unit :=
  { state := 0, calls := [] }

/-- A broker factory that succeeds. -/
def sampleBrokerFactory : Unit → Option (brokers.Broker Nat) × GoError :=
  fun _ => (some sampleBroker, none)

/-- A backend factory that succeeds. -/
def sampleBackendFactory : Unit → Option (backends.Backend Nat Unit) × GoError :=
  fun _ => (some sampleBackend, none)

/-- A backend factory that fails the usual way: no value, an error. -/
def failingBackendFactory : Unit → Option (backends.Backend Nat Unit) × GoError :=
  fun _ => (none, some "Factory failed with result backend: none")

/-- A backend factory that returns a value together with its error. -/
def halfBackendFactory : Unit → Option (backends.Backend Nat Unit) × GoError :=
  fun _ => (some sampleBackend, some "result backend: connection lost")

/-! ## UpdateTaskState -/

/-- C7. With no Backend, UpdateTaskState returns nil and leaves the world
as it was (no call is made); with a Backend it makes one UpdateState call
with the same UUID, state and result, and returns what that call returns. -/
theorem UpdateTaskState_forwards {C H W R : Type} (server : Server C H W R)
    (taskUUID state : String) (result : Option R) (w : World W R) :
    (server.backend = none →
        server.UpdateTaskState taskUUID state result w = (none, w)) ∧
    (∀ backend, server.backend = some backend →
        (server.UpdateTaskState taskUUID state result w).1
            = (backend.UpdateState taskUUID state result w.state).1 ∧
        (server.UpdateTaskState taskUUID state result w).2.state
            = (backend.UpdateState taskUUID state result w.state).2 ∧
        (server.UpdateTaskState taskUUID state result w).2.calls
            = w.calls ++ [Call.UpdateState taskUUID state result]) := by
  constructor
  · intro h
    simp [Server.UpdateTaskState, h]
  · intro backend h
    simp [Server.UpdateTaskState, h]

/-! ## SendTask: the shape of every run -/

/-- The calls appended to a world are the calls made since. -/
theorem callsMade_append {W R : Type} (w : World W R) (st : W) (l : List (Call R)) :
    callsMade w { state := st, calls := w.calls ++ l } = l := by
  simp [callsMade]

/-- Nothing was called between a world and itself. -/
theorem callsMade_self {W R : Type} (w : World W R) : callsMade w w = [] := by
  simp [callsMade]

/-- The signature a call of SendTask leaves is the one with the UUID assigned. -/
theorem SendTask_signature {C H W R A : Type} (server : Server C H W R)
    (NewV4 : String) (Marshal : TaskSignature A → Except String Bytes)
    (signature : TaskSignature A) (w : World W R) :
    (server.SendTask NewV4 Marshal signature w).signature = assignUUID NewV4 signature := by
  unfold Server.SendTask assignUUID
  simp only []
  split
  · rfl
  · split
    · rfl
    · split <;> rfl

/-- A run whose encoding fails. -/
theorem SendTask_of_marshal_error {C H W R A : Type} (server : Server C H W R)
    (NewV4 : String) (Marshal : TaskSignature A → Except String Bytes)
    (signature : TaskSignature A) (w : World W R) (e : String)
    (hm : Marshal (assignUUID NewV4 signature) = .error e) :
    server.SendTask NewV4 Marshal signature w =
      { signature := assignUUID NewV4 signature, world := w,
        ret := .ok (none, some ("JSON Encode Message: " ++ e)) } := by
  unfold assignUUID at hm
  unfold Server.SendTask assignUUID
  simp only [hm]

/-- A run whose encoding succeeds on a server without a broker. -/
theorem SendTask_of_nil_broker {C H W R A : Type} (server : Server C H W R)
    (NewV4 : String) (Marshal : TaskSignature A → Except String Bytes)
    (signature : TaskSignature A) (w : World W R) (message : Bytes)
    (hm : Marshal (assignUUID NewV4 signature) = .ok message)
    (hb : server.broker = none) :
    server.SendTask NewV4 Marshal signature w =
      { signature := assignUUID NewV4 signature,
        world := (server.UpdateTaskState (assignUUID NewV4 signature).UUID
                    backends.PendingState none w).2,
        ret := .error "runtime error: invalid memory address or nil pointer dereference" } := by
  unfold assignUUID at hm
  unfold Server.SendTask assignUUID
  simp only [hm, hb]

/-- A run whose encoding succeeds and whose publish fails. -/
theorem SendTask_of_publish_error {C H W R A : Type} (server : Server C H W R)
    (broker : brokers.Broker W)
    (NewV4 : String) (Marshal : TaskSignature A → Except String Bytes)
    (signature : TaskSignature A) (w : World W R) (message : Bytes) (err : String)
    (hm : Marshal (assignUUID NewV4 signature) = .ok message)
    (hb : server.broker = some broker)
    (hp : (broker.Publish message (assignUUID NewV4 signature).RoutingKey
            (server.UpdateTaskState (assignUUID NewV4 signature).UUID
              backends.PendingState none w).2.state).1 = some err) :
    server.SendTask NewV4 Marshal signature w =
      { signature := assignUUID NewV4 signature,
        world := (server.UpdateTaskState (assignUUID NewV4 signature).UUID
          backends.FailureState none
          { state := (broker.Publish message (assignUUID NewV4 signature).RoutingKey
              (server.UpdateTaskState (assignUUID NewV4 signature).UUID
                backends.PendingState none w).2.state).2,
            calls := (server.UpdateTaskState (assignUUID NewV4 signature).UUID
                backends.PendingState none w).2.calls
              ++ [Call.Publish message (assignUUID NewV4 signature).RoutingKey] }).2,
        ret := .ok (none, some ("Publish Message: " ++ err)) } := by
  unfold assignUUID at hm hp
  unfold Server.SendTask assignUUID
  simp only [hm, hb, hp]

/-- A run whose encoding and publish both succeed. -/
theorem SendTask_of_publish_ok {C H W R A : Type} (server : Server C H W R)
    (broker : brokers.Broker W)
    (NewV4 : String) (Marshal : TaskSignature A → Except String Bytes)
    (signature : TaskSignature A) (w : World W R) (message : Bytes)
    (hm : Marshal (assignUUID NewV4 signature) = .ok message)
    (hb : server.broker = some broker)
    (hp : (broker.Publish message (assignUUID NewV4 signature).RoutingKey
            (server.UpdateTaskState (assignUUID NewV4 signature).UUID
              backends.PendingState none w).2.state).1 = none) :
    server.SendTask NewV4 Marshal signature w =
      { signature := assignUUID NewV4 signature,
        world :=
          { state := (broker.Publish message (assignUUID NewV4 signature).RoutingKey
              (server.UpdateTaskState (assignUUID NewV4 signature).UUID
                backends.PendingState none w).2.state).2,
            calls := (server.UpdateTaskState (assignUUID NewV4 signature).UUID
                backends.PendingState none w).2.calls
              ++ [Call.Publish message (assignUUID NewV4 signature).RoutingKey] },
        ret := .ok (some (backends.NewAsyncResult (assignUUID NewV4 signature).UUID
                  server.backend), none) } := by
  unfold assignUUID at hm hp
  unfold Server.SendTask assignUUID
  simp only [hm, hb, hp]

/-- The calls of UpdateTaskState: none without a Backend, one with a Backend. -/
theorem UpdateTaskState_calls {C H W R : Type} (server : Server C H W R)
    (taskUUID state : String) (result : Option R) (w : World W R) :
    (server.UpdateTaskState taskUUID state result w).2.calls =
      w.calls ++ (match server.backend with
        | none => []
        | some _ => [Call.UpdateState taskUUID state result]) := by
  unfold Server.UpdateTaskState
  cases server.backend <;> simp

/-! ## SendTask: the claims -/

/-- C1. On a server with a Backend, when the encoding succeeds and
Broker.Publish returns an error, the calls SendTask makes are
UpdateState(U, Pending, nil), Publish, UpdateState(U, Failure, nil), in
that order, so the Backend calls are exactly the Pending write followed
by the Failure write, U being the UUID of the signature after the call;
SendTask returns a nil AsyncResult and the error whose text is
"Publish Message: " followed by the text of the broker's error. -/
theorem SendTask_publish_failure {C H W R A : Type} (server : Server C H W R)
    (backend : backends.Backend W R) (broker : brokers.Broker W)
    (NewV4 : String) (Marshal : TaskSignature A → Except String Bytes)
    (signature : TaskSignature A) (w : World W R) (message : Bytes) (err : String)
    (hk : server.backend = some backend)
    (hb : server.broker = some broker)
    (hm : Marshal (assignUUID NewV4 signature) = .ok message)
    (hp : (broker.Publish message (assignUUID NewV4 signature).RoutingKey
            (backend.UpdateState (assignUUID NewV4 signature).UUID
              backends.PendingState none w.state).2).1 = some err) :
    callsMade w (server.SendTask NewV4 Marshal signature w).world =
      [Call.UpdateState (server.SendTask NewV4 Marshal signature w).signature.UUID
          backends.PendingState none,
       Call.Publish message (server.SendTask NewV4 Marshal signature w).signature.RoutingKey,
       Call.UpdateState (server.SendTask NewV4 Marshal signature w).signature.UUID
          backends.FailureState none] ∧
    backendCalls (callsMade w (server.SendTask NewV4 Marshal signature w).world) =
      [Call.UpdateState (server.SendTask NewV4 Marshal signature w).signature.UUID
          backends.PendingState none,
       Call.UpdateState (server.SendTask NewV4 Marshal signature w).signature.UUID
          backends.FailureState none] ∧
    (server.SendTask NewV4 Marshal signature w).ret =
      .ok (none, some ("Publish Message: " ++ err)) := by
  have hp2 : (broker.Publish message (assignUUID NewV4 signature).RoutingKey
            (server.UpdateTaskState (assignUUID NewV4 signature).UUID
              backends.PendingState none w).2.state).1 = some err := by
    simpa [Server.UpdateTaskState, hk] using hp
  rw [SendTask_of_publish_error server broker NewV4 Marshal signature w message err hm hb hp2]
  simp [Server.UpdateTaskState, hk, callsMade, backendCalls]

/-- C1, at the spec's scenario B: the broker refuses the message of the
email signature. -/
theorem SendTask_publish_failure_witness :
    callsMade emptyWorld
        ((sampleServer (some refusingBroker) (some sampleBackend)).SendTask
          "6ba7b810" sampleMarshal emailSignature emptyWorld).world =
      [Call.UpdateState "6ba7b810" "PENDING" none,
       Call.Publish [8, 13] "notifications",
       Call.UpdateState "6ba7b810" "FAILURE" none] ∧
    backendCalls (callsMade emptyWorld
        ((sampleServer (some refusingBroker) (some sampleBackend)).SendTask
          "6ba7b810" sampleMarshal emailSignature emptyWorld).world) =
      [Call.UpdateState "6ba7b810" "PENDING" none,
       Call.UpdateState "6ba7b810" "FAILURE" none] ∧
    ((sampleServer (some refusingBroker) (some sampleBackend)).SendTask
          "6ba7b810" sampleMarshal emailSignature emptyWorld).ret =
      .ok (none, some "Publish Message: connection refused") :=
  SendTask_publish_failure (sampleServer (some refusingBroker) (some sampleBackend))
    sampleBackend refusingBroker "6ba7b810" sampleMarshal emailSignature emptyWorld
    [8, 13] "connection refused" rfl rfl rfl rfl

/-- C2. When the encoding and Broker.Publish both succeed, SendTask makes
one Backend write, UpdateState(U, Pending, nil), when a Backend is present
and none when it is absent, calls Publish once, with the encoded signature
and the signature's RoutingKey, and returns a nil error with the
AsyncResult built from U and the server's Backend, U being the UUID of the
signature after the call. -/
theorem SendTask_publish_success {C H W R A : Type} (server : Server C H W R)
    (broker : brokers.Broker W)
    (NewV4 : String) (Marshal : TaskSignature A → Except String Bytes)
    (signature : TaskSignature A) (w : World W R) (message : Bytes)
    (hb : server.broker = some broker)
    (hm : Marshal (assignUUID NewV4 signature) = .ok message)
    (hp : (broker.Publish message (assignUUID NewV4 signature).RoutingKey
            (server.UpdateTaskState (assignUUID NewV4 signature).UUID
              backends.PendingState none w).2.state).1 = none) :
    (∀ backend, server.backend = some backend →
      callsMade w (server.SendTask NewV4 Marshal signature w).world =
        [Call.UpdateState (server.SendTask NewV4 Marshal signature w).signature.UUID
            backends.PendingState none,
         Call.Publish message
            (server.SendTask NewV4 Marshal signature w).signature.RoutingKey]) ∧
    (server.backend = none →
      callsMade w (server.SendTask NewV4 Marshal signature w).world =
        [Call.Publish message
            (server.SendTask NewV4 Marshal signature w).signature.RoutingKey]) ∧
    brokerCalls (callsMade w (server.SendTask NewV4 Marshal signature w).world) =
      [Call.Publish message
          (server.SendTask NewV4 Marshal signature w).signature.RoutingKey] ∧
    Marshal (server.SendTask NewV4 Marshal signature w).signature = .ok message ∧
    (server.SendTask NewV4 Marshal signature w).ret =
      .ok (some (backends.NewAsyncResult
              (server.SendTask NewV4 Marshal signature w).signature.UUID server.backend),
            none) := by
  rw [SendTask_of_publish_ok server broker NewV4 Marshal signature w message hm hb hp]
  refine ⟨?_, ?_, ?_, hm, rfl⟩
  · intro backend hk
    simp [Server.UpdateTaskState, hk, callsMade]
  · intro hk
    simp [Server.UpdateTaskState, hk, callsMade]
  · simp only [UpdateTaskState_calls]
    cases server.backend <;> simp [callsMade, brokerCalls]

/-- C2, at the spec's scenario A: the email signature on a server with a
Backend and a broker that accepts the message. -/
theorem SendTask_publish_success_witness :
    callsMade emptyWorld
        ((sampleServer (some sampleBroker) (some sampleBackend)).SendTask
          "6ba7b810" sampleMarshal emailSignature emptyWorld).world =
      [Call.UpdateState "6ba7b810" "PENDING" none,
       Call.Publish [8, 13] "notifications"] ∧
    ((sampleServer (some sampleBroker) (some sampleBackend)).SendTask
          "6ba7b810" sampleMarshal emailSignature emptyWorld).ret =
      .ok (some (backends.NewAsyncResult "6ba7b810" (some sampleBackend)), none) :=
  ⟨(SendTask_publish_success (sampleServer (some sampleBroker) (some sampleBackend))
      sampleBroker "6ba7b810" sampleMarshal emailSignature emptyWorld [8, 13]
      rfl rfl rfl).1 sampleBackend rfl,
   (SendTask_publish_success (sampleServer (some sampleBroker) (some sampleBackend))
      sampleBroker "6ba7b810" sampleMarshal emailSignature emptyWorld [8, 13]
      rfl rfl rfl).2.2.2.2⟩

/-- C3. When the encoding of the signature fails, SendTask returns a nil
AsyncResult and a non-nil error, the text "JSON Encode Message: " followed
by the encoder's, and the world is as it was: no Backend.UpdateState call
and no Broker.Publish call is made and no collaborator state changes. -/
theorem SendTask_encoding_failure {C H W R A : Type} (server : Server C H W R)
    (NewV4 : String) (Marshal : TaskSignature A → Except String Bytes)
    (signature : TaskSignature A) (w : World W R) (e : String)
    (hm : Marshal (assignUUID NewV4 signature) = .error e) :
    (server.SendTask NewV4 Marshal signature w).ret =
      .ok (none, some ("JSON Encode Message: " ++ e)) ∧
    (server.SendTask NewV4 Marshal signature w).world = w ∧
    callsMade w (server.SendTask NewV4 Marshal signature w).world = [] := by
  rw [SendTask_of_marshal_error server NewV4 Marshal signature w e hm]
  exact ⟨rfl, rfl, callsMade_self w⟩

/-- C3, at an encoder that fails, on a server with a Backend and a Broker. -/
theorem SendTask_encoding_failure_witness :
    ((sampleServer (some sampleBroker) (some sampleBackend)).SendTask
        "6ba7b810" failingMarshal emailSignature emptyWorld).ret =
      .ok (none, some "JSON Encode Message: json: unsupported type") ∧
    ((sampleServer (some sampleBroker) (some sampleBackend)).SendTask
        "6ba7b810" failingMarshal emailSignature emptyWorld).world = emptyWorld ∧
    callsMade emptyWorld ((sampleServer (some sampleBroker) (some sampleBackend)).SendTask
        "6ba7b810" failingMarshal emailSignature emptyWorld).world = [] :=
  SendTask_encoding_failure (sampleServer (some sampleBroker) (some sampleBackend))
    "6ba7b810" failingMarshal emailSignature emptyWorld "json: unsupported type" rfl

/-- The calls of a run whose encoding fails. -/
theorem SendTask_calls_of_marshal_error {C H W R A : Type} (server : Server C H W R)
    (NewV4 : String) (Marshal : TaskSignature A → Except String Bytes)
    (signature : TaskSignature A) (w : World W R) (e : String)
    (hm : Marshal (assignUUID NewV4 signature) = .error e) :
    callsMade w (server.SendTask NewV4 Marshal signature w).world = [] := by
  rw [SendTask_of_marshal_error server NewV4 Marshal signature w e hm]
  exact callsMade_self w

/-- The calls of a run that panics at the nil broker. -/
theorem SendTask_calls_of_nil_broker {C H W R A : Type} (server : Server C H W R)
    (NewV4 : String) (Marshal : TaskSignature A → Except String Bytes)
    (signature : TaskSignature A) (w : World W R) (message : Bytes)
    (hm : Marshal (assignUUID NewV4 signature) = .ok message)
    (hb : server.broker = none) :
    callsMade w (server.SendTask NewV4 Marshal signature w).world =
      (match server.backend with
        | none => []
        | some _ => [Call.UpdateState (assignUUID NewV4 signature).UUID
                      backends.PendingState none]) := by
  rw [SendTask_of_nil_broker server NewV4 Marshal signature w message hm hb]
  cases hK : server.backend <;> simp [Server.UpdateTaskState, hK, callsMade]

/-- The calls of a run whose publish fails. -/
theorem SendTask_calls_of_publish_error {C H W R A : Type} (server : Server C H W R)
    (broker : brokers.Broker W)
    (NewV4 : String) (Marshal : TaskSignature A → Except String Bytes)
    (signature : TaskSignature A) (w : World W R) (message : Bytes) (err : String)
    (hm : Marshal (assignUUID NewV4 signature) = .ok message)
    (hb : server.broker = some broker)
    (hp : (broker.Publish message (assignUUID NewV4 signature).RoutingKey
            (server.UpdateTaskState (assignUUID NewV4 signature).UUID
              backends.PendingState none w).2.state).1 = some err) :
    callsMade w (server.SendTask NewV4 Marshal signature w).world =
      (match server.backend with
        | none => [Call.Publish message (assignUUID NewV4 signature).RoutingKey]
        | some _ =>
          [Call.UpdateState (assignUUID NewV4 signature).UUID backends.PendingState none,
           Call.Publish message (assignUUID NewV4 signature).RoutingKey,
           Call.UpdateState (assignUUID NewV4 signature).UUID backends.FailureState none]) := by
  rw [SendTask_of_publish_error server broker NewV4 Marshal signature w message err hm hb hp]
  cases hK : server.backend <;> simp [Server.UpdateTaskState, hK, callsMade]

/-- The calls of a run whose publish succeeds. -/
theorem SendTask_calls_of_publish_ok {C H W R A : Type} (server : Server C H W R)
    (broker : brokers.Broker W)
    (NewV4 : String) (Marshal : TaskSignature A → Except String Bytes)
    (signature : TaskSignature A) (w : World W R) (message : Bytes)
    (hm : Marshal (assignUUID NewV4 signature) = .ok message)
    (hb : server.broker = some broker)
    (hp : (broker.Publish message (assignUUID NewV4 signature).RoutingKey
            (server.UpdateTaskState (assignUUID NewV4 signature).UUID
              backends.PendingState none w).2.state).1 = none) :
    callsMade w (server.SendTask NewV4 Marshal signature w).world =
      (match server.backend with
        | none => [Call.Publish message (assignUUID NewV4 signature).RoutingKey]
        | some _ =>
          [Call.UpdateState (assignUUID NewV4 signature).UUID backends.PendingState none,
           Call.Publish message (assignUUID NewV4 signature).RoutingKey]) := by
  rw [SendTask_of_publish_ok server broker NewV4 Marshal signature w message hm hb hp]
  cases hK : server.backend <;> simp [Server.UpdateTaskState, hK, callsMade]

/-- C5. SendTask keeps a UUID the caller has set and puts the generated
identifier in when the UUID is empty (so the UUID after the call is
non-empty whenever the generated text is); every Backend write of the
call carries the UUID the signature has after the call, every published
payload is the encoding of the signature as it is after the call, and the
AsyncResult returned, when there is one, carries that UUID. -/
theorem SendTask_uuid {C H W R A : Type} (server : Server C H W R)
    (NewV4 : String) (Marshal : TaskSignature A → Except String Bytes)
    (signature : TaskSignature A) (w : World W R) :
    (signature.UUID ≠ "" →
      (server.SendTask NewV4 Marshal signature w).signature = signature) ∧
    (signature.UUID = "" →
      (server.SendTask NewV4 Marshal signature w).signature.UUID = NewV4) ∧
    (NewV4 ≠ "" → (server.SendTask NewV4 Marshal signature w).signature.UUID ≠ "") ∧
    (∀ u st r, Call.UpdateState u st r ∈
        callsMade w (server.SendTask NewV4 Marshal signature w).world →
      u = (server.SendTask NewV4 Marshal signature w).signature.UUID) ∧
    (∀ m rk, Call.Publish m rk ∈
        callsMade w (server.SendTask NewV4 Marshal signature w).world →
      Marshal (server.SendTask NewV4 Marshal signature w).signature = .ok m ∧
      rk = (server.SendTask NewV4 Marshal signature w).signature.RoutingKey) ∧
    (∀ r e, (server.SendTask NewV4 Marshal signature w).ret = .ok (some r, e) →
      r.taskUUID = (server.SendTask NewV4 Marshal signature w).signature.UUID) := by
  refine ⟨?_, ?_, ?_, ?_, ?_, ?_⟩
  · intro h
    rw [SendTask_signature]
    simp [assignUUID, h]
  · intro h
    rw [SendTask_signature]
    simp [assignUUID, h]
  · intro h
    rw [SendTask_signature]
    unfold assignUUID
    split
    · exact h
    · assumption
  · intro u st r hmem
    rw [SendTask_signature]
    cases hM : Marshal (assignUUID NewV4 signature) with
    | error e =>
      rw [SendTask_calls_of_marshal_error server NewV4 Marshal signature w e hM] at hmem
      simp at hmem
    | ok message =>
      cases hB : server.broker with
      | none =>
        rw [SendTask_calls_of_nil_broker server NewV4 Marshal signature w message hM hB] at hmem
        cases hK : server.backend <;> simp [hK] at hmem
        exact hmem.1
      | some broker =>
        cases hP : (broker.Publish message (assignUUID NewV4 signature).RoutingKey
            (server.UpdateTaskState (assignUUID NewV4 signature).UUID
              backends.PendingState none w).2.state).1 with
        | none =>
          rw [SendTask_calls_of_publish_ok server broker NewV4 Marshal signature w message
            hM hB hP] at hmem
          cases hK : server.backend <;> simp [hK] at hmem
          exact hmem.1
        | some err =>
          rw [SendTask_calls_of_publish_error server broker NewV4 Marshal signature w message
            err hM hB hP] at hmem
          cases hK : server.backend <;> simp [hK] at hmem
          rcases hmem with h | h <;> exact h.1
  · intro m rk hmem
    rw [SendTask_signature]
    cases hM : Marshal (assignUUID NewV4 signature) with
    | error e =>
      rw [SendTask_calls_of_marshal_error server NewV4 Marshal signature w e hM] at hmem
      simp at hmem
    | ok message =>
      cases hB : server.broker with
      | none =>
        rw [SendTask_calls_of_nil_broker server NewV4 Marshal signature w message hM hB] at hmem
        cases hK : server.backend <;> simp [hK] at hmem
      | some broker =>
        cases hP : (broker.Publish message (assignUUID NewV4 signature).RoutingKey
            (server.UpdateTaskState (assignUUID NewV4 signature).UUID
              backends.PendingState none w).2.state).1 with
        | none =>
          rw [SendTask_calls_of_publish_ok server broker NewV4 Marshal signature w message
            hM hB hP] at hmem
          cases hK : server.backend <;> simp [hK] at hmem <;>
            exact ⟨by rw [hmem.1], hmem.2⟩
        | some err =>
          rw [SendTask_calls_of_publish_error server broker NewV4 Marshal signature w message
            err hM hB hP] at hmem
          cases hK : server.backend <;> simp [hK] at hmem <;>
            exact ⟨by rw [hmem.1], hmem.2⟩
  · intro r e hret
    rw [SendTask_signature]
    cases hM : Marshal (assignUUID NewV4 signature) with
    | error e2 =>
      rw [SendTask_of_marshal_error server NewV4 Marshal signature w e2 hM] at hret
      simp at hret
    | ok message =>
      cases hB : server.broker with
      | none =>
        rw [SendTask_of_nil_broker server NewV4 Marshal signature w message hM hB] at hret
        simp at hret
      | some broker =>
        cases hP : (broker.Publish message (assignUUID NewV4 signature).RoutingKey
            (server.UpdateTaskState (assignUUID NewV4 signature).UUID
              backends.PendingState none w).2.state).1 with
        | none =>
          rw [SendTask_of_publish_ok server broker NewV4 Marshal signature w message
            hM hB hP] at hret
          simp at hret
          rw [← hret.1]
          rfl
        | some err =>
          rw [SendTask_of_publish_error server broker NewV4 Marshal signature w message
            err hM hB hP] at hret
          simp at hret

/-- C4, as stated, fails: the same signature, the same Broker and the same
world, once on a server with a Backend and once on a server without.  The
Broker refuses a task once the shared store holds a record, and the
Backend's Pending write makes one: the run with the Backend returns the
publish error, the run without returns nil, and both make the same Broker
call. -/
theorem SendTask_error_differs_with_backend_presence :
    ((sampleServer (some sharedStoreBroker) (some sampleBackend)).SendTask
        "6ba7b810" sampleMarshal emailSignature emptyWorld).err =
      .ok (some "Publish Message: already pending") ∧
    ((sampleServer (some sharedStoreBroker) none).SendTask
        "6ba7b810" sampleMarshal emailSignature emptyWorld).err = .ok none ∧
    brokerCalls (callsMade emptyWorld
      ((sampleServer (some sharedStoreBroker) (some sampleBackend)).SendTask
        "6ba7b810" sampleMarshal emailSignature emptyWorld).world) =
    brokerCalls (callsMade emptyWorld
      ((sampleServer (some sharedStoreBroker) none).SendTask
        "6ba7b810" sampleMarshal emailSignature emptyWorld).world) ∧
    ((sampleServer (some sharedStoreBroker) (some sampleBackend)).SendTask
        "6ba7b810" sampleMarshal emailSignature emptyWorld).err ≠
      ((sampleServer (some sharedStoreBroker) none).SendTask
        "6ba7b810" sampleMarshal emailSignature emptyWorld).err :=
  ⟨rfl, rfl, rfl, by
    intro h
    have h2 : (Except.ok (some "Publish Message: already pending") : Except String GoError)
        = Except.ok none := h
    simp at h2⟩

/-- C4, amended. On every server, with a Broker or without, SendTask returns
an error exactly when the encoding fails or the Publish call of the run
fails, and with a Broker it always returns; what the Backend answers to
the Pending and the Failure write is not looked at.  Two runs on the same
signature, with the same Broker field and arbitrary Backends (and Backend
presence), return the same error outcome and make the same Broker calls
whenever the Broker answers the publish alike in the two runs. -/
theorem SendTask_error_iff {C H W R A : Type} (server1 server2 : Server C H W R)
    (NewV4 : String) (Marshal : TaskSignature A → Except String Bytes)
    (signature : TaskSignature A) (w1 w2 : World W R)
    (hb : server1.broker = server2.broker)
    (hsame : ∀ broker message, server1.broker = some broker →
      Marshal (assignUUID NewV4 signature) = .ok message →
      (broker.Publish message (assignUUID NewV4 signature).RoutingKey
          (server1.UpdateTaskState (assignUUID NewV4 signature).UUID
            backends.PendingState none w1).2.state).1 =
      (broker.Publish message (assignUUID NewV4 signature).RoutingKey
          (server2.UpdateTaskState (assignUUID NewV4 signature).UUID
            backends.PendingState none w2).2.state).1) :
    ((∃ e, (server1.SendTask NewV4 Marshal signature w1).err = .ok (some e)) ↔
      ((∃ e, Marshal (assignUUID NewV4 signature) = .error e) ∨
       (∃ broker message e, server1.broker = some broker ∧
          Marshal (assignUUID NewV4 signature) = .ok message ∧
          (broker.Publish message (assignUUID NewV4 signature).RoutingKey
            (server1.UpdateTaskState (assignUUID NewV4 signature).UUID
              backends.PendingState none w1).2.state).1 = some e))) ∧
    (∀ broker, server1.broker = some broker →
      ∃ g, (server1.SendTask NewV4 Marshal signature w1).err = .ok g) ∧
    (server1.SendTask NewV4 Marshal signature w1).err =
      (server2.SendTask NewV4 Marshal signature w2).err ∧
    brokerCalls (callsMade w1 (server1.SendTask NewV4 Marshal signature w1).world) =
      brokerCalls (callsMade w2 (server2.SendTask NewV4 Marshal signature w2).world) := by
  cases hM : Marshal (assignUUID NewV4 signature) with
  | error e =>
    rw [SendTask_calls_of_marshal_error server1 NewV4 Marshal signature w1 e hM,
      SendTask_calls_of_marshal_error server2 NewV4 Marshal signature w2 e hM,
      SendTask_of_marshal_error server1 NewV4 Marshal signature w1 e hM,
      SendTask_of_marshal_error server2 NewV4 Marshal signature w2 e hM]
    simp [SendTaskResult.err, Except.map]
  | ok message =>
    cases hB1 : server1.broker with
    | none =>
      have hB2 : server2.broker = none := by rw [← hb, hB1]
      rw [SendTask_calls_of_nil_broker server1 NewV4 Marshal signature w1 message hM hB1,
        SendTask_calls_of_nil_broker server2 NewV4 Marshal signature w2 message hM hB2,
        SendTask_of_nil_broker server1 NewV4 Marshal signature w1 message hM hB1,
        SendTask_of_nil_broker server2 NewV4 Marshal signature w2 message hM hB2]
      refine ⟨?_, ?_, ?_, ?_⟩
      · simp [SendTaskResult.err, Except.map]
      · simp
      · simp [SendTaskResult.err, Except.map]
      · cases server1.backend <;> cases server2.backend <;> simp [brokerCalls]
    | some broker =>
      have hB2 : server2.broker = some broker := by rw [← hb, hB1]
      have hs := hsame broker message hB1 hM
      cases hP : (broker.Publish message (assignUUID NewV4 signature).RoutingKey
            (server1.UpdateTaskState (assignUUID NewV4 signature).UUID
              backends.PendingState none w1).2.state).1 with
      | none =>
        have hP2 := hP
        rw [hs] at hP2
        rw [SendTask_calls_of_publish_ok server1 broker NewV4 Marshal signature w1 message
            hM hB1 hP,
          SendTask_calls_of_publish_ok server2 broker NewV4 Marshal signature w2 message
            hM hB2 hP2,
          SendTask_of_publish_ok server1 broker NewV4 Marshal signature w1 message hM hB1 hP,
          SendTask_of_publish_ok server2 broker NewV4 Marshal signature w2 message hM hB2 hP2]
        refine ⟨?_, ?_, ?_, ?_⟩
        · simp [SendTaskResult.err, Except.map, hP]
        · simp [SendTaskResult.err, Except.map]
        · simp [SendTaskResult.err, Except.map]
        · cases server1.backend <;> cases server2.backend <;> simp [brokerCalls]
      | some err =>
        have hP2 := hP
        rw [hs] at hP2
        rw [SendTask_calls_of_publish_error server1 broker NewV4 Marshal signature w1 message
            err hM hB1 hP,
          SendTask_calls_of_publish_error server2 broker NewV4 Marshal signature w2 message
            err hM hB2 hP2,
          SendTask_of_publish_error server1 broker NewV4 Marshal signature w1 message err
            hM hB1 hP,
          SendTask_of_publish_error server2 broker NewV4 Marshal signature w2 message err
            hM hB2 hP2]
        refine ⟨?_, ?_, ?_, ?_⟩
        · simp [SendTaskResult.err, Except.map, hP]
        · simp [SendTaskResult.err, Except.map]
        · simp [SendTaskResult.err, Except.map]
        · cases server1.backend <;> cases server2.backend <;> simp [brokerCalls]

/-- C4 amended, at a refusing broker, whose answer does not depend on the
store: one run with a Backend that fails every write, one run with no
Backend; both return the publish error and make the same Broker call. -/
theorem SendTask_error_iff_witness :
    ((sampleServer (some refusingBroker) (some failingBackend)).SendTask
        "6ba7b810" sampleMarshal emailSignature emptyWorld).err =
      ((sampleServer (some refusingBroker) none).SendTask
        "6ba7b810" sampleMarshal emailSignature emptyWorld).err ∧
    brokerCalls (callsMade emptyWorld
      ((sampleServer (some refusingBroker) (some failingBackend)).SendTask
        "6ba7b810" sampleMarshal emailSignature emptyWorld).world) =
    brokerCalls (callsMade emptyWorld
      ((sampleServer (some refusingBroker) none).SendTask
        "6ba7b810" sampleMarshal emailSignature emptyWorld).world) :=
  (SendTask_error_iff (sampleServer (some refusingBroker) (some failingBackend))
    (sampleServer (some refusingBroker) none)
    "6ba7b810" sampleMarshal emailSignature emptyWorld emptyWorld rfl
    (fun broker _ hbr _ => by
      have hq : refusingBroker = broker := Option.some.inj hbr
      subst hq
      rfl)).2.2

/-- C8, as stated, fails: the same signature is submitted twice to a server
with a Backend whose broker refuses; the first call writes Pending then
Failure for "u-1", and the second call writes Pending for "u-1" again. -/
theorem SendTasks_pending_after_failure :
    ((sampleServer (some refusingBroker) (some sampleBackend)).SendTasks sampleMarshal
        [("6ba7b810", presetSignature), ("6ba7b811", presetSignature)] emptyWorld).calls =
      [Call.UpdateState "u-1" "PENDING" none,
       Call.Publish [3, 13] "notifications",
       Call.UpdateState "u-1" "FAILURE" none,
       Call.UpdateState "u-1" "PENDING" none,
       Call.Publish [3, 13] "notifications",
       Call.UpdateState "u-1" "FAILURE" none] ∧
    pendingAfterFailure
      ((sampleServer (some refusingBroker) (some sampleBackend)).SendTasks sampleMarshal
        [("6ba7b810", presetSignature), ("6ba7b811", presetSignature)] emptyWorld).calls
      = true :=
  ⟨rfl, rfl⟩

/-- C8, amended. Within one SendTask call no Pending write follows a Failure
write.  Across calls there is no such guarantee: on a server with a
Backend every SendTask call whose encoding succeeds starts by writing
Pending for the UUID of its signature, whatever the world was before, a
world in which Failure was written for that UUID included. -/
theorem SendTask_no_pending_after_failure {C H W R A : Type} (server : Server C H W R)
    (NewV4 : String) (Marshal : TaskSignature A → Except String Bytes)
    (signature : TaskSignature A) (w : World W R) :
    pendingAfterFailure (callsMade w (server.SendTask NewV4 Marshal signature w).world)
      = false ∧
    (∀ backend message, server.backend = some backend →
      Marshal (assignUUID NewV4 signature) = .ok message →
      (callsMade w (server.SendTask NewV4 Marshal signature w).world).head? =
        some (Call.UpdateState (server.SendTask NewV4 Marshal signature w).signature.UUID
          backends.PendingState none)) := by
  cases hM : Marshal (assignUUID NewV4 signature) with
  | error e =>
    rw [SendTask_calls_of_marshal_error server NewV4 Marshal signature w e hM]
    simp [pendingAfterFailure]
  | ok message =>
    rw [SendTask_signature]
    cases hB : server.broker with
    | none =>
      rw [SendTask_calls_of_nil_broker server NewV4 Marshal signature w message hM hB]
      cases hK : server.backend <;>
        simp [pendingAfterFailure, Call.writes, backends.PendingState, backends.FailureState]
    | some broker =>
      cases hP : (broker.Publish message (assignUUID NewV4 signature).RoutingKey
          (server.UpdateTaskState (assignUUID NewV4 signature).UUID
            backends.PendingState none w).2.state).1 with
      | none =>
        rw [SendTask_calls_of_publish_ok server broker NewV4 Marshal signature w message
          hM hB hP]
        cases hK : server.backend <;>
          simp [pendingAfterFailure, Call.writes, backends.PendingState, backends.FailureState]
      | some err =>
        rw [SendTask_calls_of_publish_error server broker NewV4 Marshal signature w message
          err hM hB hP]
        cases hK : server.backend <;>
          simp [pendingAfterFailure, Call.writes, backends.PendingState, backends.FailureState]

/-! ## NewServer -/

/-- C6, as stated, fails: the broker factory succeeds and the backend factory
returns a backend together with an error; the Server returned has that
backend, and UpdateTaskState on it calls the backend. -/
theorem NewServer_keeps_backend_returned_with_error :
    ∃ server : Server Unit Nat Nat Unit,
      (halfBackendFactory ()).2 = some "result backend: connection lost" ∧
      NewServer sampleBrokerFactory halfBackendFactory () = (some server, none) ∧
      server.backend.isSome = true ∧
      (server.UpdateTaskState "u-1" backends.PendingState none emptyWorld).2.calls =
        [Call.UpdateState "u-1" "PENDING" none] :=
  ⟨{ config := (), registeredTasks := GoMap.mk [], broker := some sampleBroker,
     backend := some sampleBackend }, rfl, rfl, rfl, rfl⟩

/-- C6, amended. NewServer returns no Server and the broker factory's error
exactly when the broker factory fails.  When the broker factory succeeds,
NewServer returns nil error and a Server with the config, an empty
registry, the broker returned, and as Backend the value the backend
factory returned, its error being ignored: the Backend is absent, and
UpdateTaskState a no-op, when that value is nil. -/
theorem NewServer_outcome {C H W R : Type}
    (BrokerFactory : C → Option (brokers.Broker W) × GoError)
    (BackendFactory : C → Option (backends.Backend W R) × GoError) (cnf : C) :
    (((NewServer BrokerFactory BackendFactory cnf : Option (Server C H W R) × GoError).1 = none ∧
        (NewServer BrokerFactory BackendFactory cnf : Option (Server C H W R) × GoError).2 ≠ none)
      ↔ (BrokerFactory cnf).2 ≠ none) ∧
    (∀ err, (BrokerFactory cnf).2 = some err →
      (NewServer BrokerFactory BackendFactory cnf : Option (Server C H W R) × GoError)
        = (none, some err)) ∧
    ((BrokerFactory cnf).2 = none →
      (NewServer BrokerFactory BackendFactory cnf : Option (Server C H W R) × GoError) =
        (some { config := cnf, registeredTasks := GoMap.mk [],
                broker := (BrokerFactory cnf).1, backend := (BackendFactory cnf).1 }, none)) ∧
    (∀ server : Server C H W R,
      NewServer BrokerFactory BackendFactory cnf = (some server, none) →
      (BackendFactory cnf).1 = none →
      server.backend = none ∧
      ∀ taskUUID state result w,
        server.UpdateTaskState taskUUID state result w = (none, w)) := by
  unfold NewServer
  rcases hB : BrokerFactory cnf with ⟨b, _ | err⟩
  · refine ⟨by simp, by simp, by simp, ?_⟩
    intro server hs hk
    simp only [Prod.mk.injEq, Option.some.injEq, and_true] at hs
    subst hs
    simp [Server.UpdateTaskState, hk]
  · simp

/-! ## The registry -/

/-- C9, the failing run: on the Server NewServer returns, RegisterTasks with
the nil map followed by RegisterTask panics at the map assignment. -/
theorem RegisterTask_panics_after_nil_RegisterTasks :
    ∃ server : Server Unit Nat Nat Unit,
      NewServer sampleBrokerFactory sampleBackendFactory () = (some server, none) ∧
      Reachable (server.RegisterTasks GoMap.nil) ∧
      (server.RegisterTasks GoMap.nil).RegisterTask "a" (some 1) =
        .error "assignment to entry in nil map" :=
  ⟨{ config := (), registeredTasks := GoMap.mk [], broker := some sampleBroker,
     backend := some sampleBackend }, rfl,
   Reachable.registerTasks _ _
     (Reachable.new sampleBrokerFactory sampleBackendFactory () _ rfl), rfl⟩

/-- C10. After RegisterTasks(m) the registry is m: GetRegisteredTask returns
the handler m has for a name in m and nil for a name not in m, whatever was
registered before; on the nil map every lookup returns nil.  The lookup is
a total function: it has no way to fault. -/
theorem RegisterTasks_replaces {C H W R : Type} (server : Server C H W R)
    (tasks : GoMap H) (name : String) :
    (server.RegisterTasks tasks).registeredTasks = tasks ∧
    (∀ task, tasks.lookup name = some task →
      (server.RegisterTasks tasks).GetRegisteredTask name = task) ∧
    (tasks.lookup name = none →
      (server.RegisterTasks tasks).GetRegisteredTask name = none) ∧
    (server.RegisterTasks GoMap.nil).GetRegisteredTask name = none := by
  refine ⟨rfl, ?_, ?_, rfl⟩
  · intro task h
    simp [Server.RegisterTasks, Server.GetRegisteredTask, GoMap.index, h]
  · intro h
    simp [Server.RegisterTasks, Server.GetRegisteredTask, GoMap.index, h]

/-- Dropping the entries of one key leaves the lookups of every other key. -/
theorem lookup_filter_ne {V : Type} (entries : List (String × V)) (name other : String)
    (h : other ≠ name) :
    (entries.filter (fun e => e.1 != name)).lookup other = entries.lookup other := by
  induction entries with
  | nil => rfl
  | cons e rest ih =>
    obtain ⟨k, v⟩ := e
    by_cases hk : k = name
    · subst hk
      have hne : (other == k) = false := by simpa using h
      simp [List.filter_cons, List.lookup_cons, hne, ih]
    · simp [List.filter_cons, List.lookup_cons, hk, ih]

/-- On an allocated map, RegisterTask returns and sets one entry: the name
registered then resolves to the handler given (the last write wins), every
other name resolves as before, and nothing else of the server changes. -/
theorem RegisterTask_registers {C H W R : Type} (server : Server C H W R)
    (entries : List (String × Option H)) (name : String) (task : Option H)
    (h : server.registeredTasks = GoMap.mk entries) :
    ∃ after, server.RegisterTask name task = .ok after ∧
      after.GetRegisteredTask name = task ∧
      (∀ other, other ≠ name →
        after.GetRegisteredTask other = server.GetRegisteredTask other) ∧
      after.config = server.config ∧ after.broker = server.broker ∧
      after.backend = server.backend := by
  refine ⟨{ server with
              registeredTasks := GoMap.mk ((name, task) :: entries.filter (fun e => e.1 != name)) },
    ?_, ?_, ?_, rfl, rfl, rfl⟩
  · simp [Server.RegisterTask, GoMap.assign, h]
  · simp [Server.GetRegisteredTask, GoMap.index, GoMap.lookup, List.lookup_cons]
  · intro other hne
    have hb : (other == name) = false := by simpa using hne
    simp [Server.GetRegisteredTask, GoMap.index, GoMap.lookup, List.lookup_cons, hb, h,
      lookup_filter_ne entries name other hne]

/-- RegisterTask on a server with an empty allocated registry: "a" then
resolves to the handler registered and every other name resolves as before. -/
theorem RegisterTask_registers_witness :
    ∃ after, (sampleServer (some sampleBroker) none).RegisterTask "a" (some 1) = .ok after ∧
      after.GetRegisteredTask "a" = some 1 ∧
      (∀ other, other ≠ "a" →
        after.GetRegisteredTask other =
          (sampleServer (some sampleBroker) none).GetRegisteredTask other) ∧
      after.config = (sampleServer (some sampleBroker) none).config ∧
      after.broker = (sampleServer (some sampleBroker) none).broker ∧
      after.backend = (sampleServer (some sampleBroker) none).backend :=
  RegisterTask_registers (sampleServer (some sampleBroker) none) [] "a" (some 1) rfl

/-- RegisterTask faults exactly on the nil map. -/
theorem RegisterTask_panics_iff {C H W R : Type} (server : Server C H W R)
    (name : String) (task : Option H) :
    (∃ p, server.RegisterTask name task = .error p) ↔ server.registeredTasks = GoMap.nil := by
  unfold Server.RegisterTask GoMap.assign
  cases server.registeredTasks <;> simp

end machinery
